import Mathlib

/-!
Shallow embedding of the scene-graph update pipeline of a retained-mode 2D
renderer: the node registry (`tree` in the source), the `CoreNode` class with
its dirty-bitmask-driven recomputation (`CoreNode.update` and the property
setters), and the property-animation engine (`CoreAnimation`).

Modelling conventions:
* JavaScript numbers are modelled as rationals (`ℚ`); the scene graph never
  relies on float rounding, and all comparisons in the source are exact
  (`!==`, `>`, `<`).
* The global registry (a `Map<number, CoreNode>` plus a dirty `Map`) becomes
  an explicit `NodeTree` value threaded through every operation; a JavaScript
  object reference to a node becomes the node's id, dereferenced through the
  registry (all scenarios keep referenced nodes registered).
* `assertTruthy` (from `utils.js`, not among the sources) is modelled from the
  spec: an assertion on a falsy value faults, so fallible operations return
  `Except String`.
* `Matrix3d` (from `core/lib/Matrix3d.js`, not among the sources) is modelled
  from the spec as a 2D affine transform with translate/scale/rotate
  composition; the cosine and sine used by `rotate` are passed in as function
  parameters `cosf`/`sinf`, since trigonometric functions on `ℚ` are not
  computable and no claim depends on trigonometric identities.
-/

-- The library marks the rational-arithmetic primitives irreducible, which
-- blocks `decide` from evaluating concrete scenarios; restore the default
-- reducibility (the kernel checks the resulting proofs as usual).
set_option allowUnsafeReducibility true
attribute [semireducible] Rat.add Rat.sub Rat.neg Rat.mul Rat.inv Rat.div Rat.blt

deriving instance DecidableEq for Except

/-- Modelled from the spec: `Matrix3d` (source file `core/lib/Matrix3d.js` is
not among the sources) is a 2D affine transform. The six coefficients are the
ones `CoreNode.renderQuads` reads: the 2x2 linear part `ta tb tc td` and the
translation `tx ty`, i.e. the matrix `[[ta, tb, tx], [tc, td, ty], [0, 0, 1]]`. -/
structure Matrix3d where
  ta : ℚ
  tb : ℚ
  tc : ℚ
  td : ℚ
  tx : ℚ
  ty : ℚ
deriving DecidableEq

/-- Modelled from the spec: the identity transform. -/
def Matrix3d.identity : Matrix3d := ⟨1, 0, 0, 1, 0, 0⟩

/-- Modelled from the spec: affine composition, `(a.multiply b)` applies `b`
first and then `a` (matrix product of the two 3x3 matrices). -/
def Matrix3d.multiply (a b : Matrix3d) : Matrix3d :=
  { ta := a.ta * b.ta + a.tb * b.tc
    tb := a.ta * b.tb + a.tb * b.td
    tc := a.tc * b.ta + a.td * b.tc
    td := a.tc * b.tb + a.td * b.td
    tx := a.ta * b.tx + a.tb * b.ty + a.tx
    ty := a.tc * b.tx + a.td * b.ty + a.ty }

/-- Modelled from the spec: the static `Matrix3d.translate(x, y)`, a pure
translation matrix. -/
def Matrix3d.translateM (x y : ℚ) : Matrix3d := ⟨1, 0, 0, 1, x, y⟩

/-- Modelled from the spec: the static `Matrix3d.rotate(r)`, a pure rotation
matrix, with the cosine `c` and sine `s` of the angle supplied by the caller. -/
def Matrix3d.rotateM (c s : ℚ) : Matrix3d := ⟨c, -s, s, c, 0, 0⟩

/-- Modelled from the spec: the static scale matrix. -/
def Matrix3d.scaleM (sx sy : ℚ) : Matrix3d := ⟨sx, 0, 0, sy, 0, 0⟩

/-- Modelled from the spec: the instance method `m.scale(sx, sy)`
post-multiplies by a scale ("rotate then scale" composes this way in
`updateScaleRotateTransform`). -/
def Matrix3d.scale (m : Matrix3d) (sx sy : ℚ) : Matrix3d :=
  m.multiply (Matrix3d.scaleM sx sy)

/-- Modelled from the spec: the instance method `m.translate(x, y)`
post-multiplies by a translation (used for the `-pivot` back-translation in
`updateLocalTransform`). -/
def Matrix3d.translate (m : Matrix3d) (x y : ℚ) : Matrix3d :=
  m.multiply (Matrix3d.translateM x y)

/-- An axis-aligned rectangle (`Rect` from `core/lib/utils.js`). -/
structure Rect where
  x : ℚ
  y : ℚ
  width : ℚ
  height : ℚ
deriving DecidableEq

/-- Modelled from the spec: `intersectRect` (source `core/lib/utils.js` is not
among the sources) returns the axis-aligned intersection; the spec's worked
example is `(150,0,100,100) ∩ (0,0,200,200) = (150,0,50,100)`. -/
def intersectRect (a b : Rect) : Rect :=
  let x := max a.x b.x
  let y := max a.y b.y
  let x2 := min (a.x + a.width) (b.x + b.width)
  let y2 := min (a.y + a.height) (b.y + b.height)
  ⟨x, y, x2 - x, y2 - y⟩

/-- The writable property store of a scene node (`CoreNodeProps`). Colors are
packed numbers in the source; they stay plain numbers here. -/
structure CoreNodeProps where
  id : ℕ
  x : ℚ
  y : ℚ
  width : ℚ
  height : ℚ
  alpha : ℚ
  clipping : Bool
  color : ℚ
  colorTop : ℚ
  colorBottom : ℚ
  colorLeft : ℚ
  colorRight : ℚ
  colorTl : ℚ
  colorTr : ℚ
  colorBl : ℚ
  colorBr : ℚ
  zIndex : ℚ
  zIndexLocked : ℚ
  scaleX : ℚ
  scaleY : ℚ
  mount : ℚ
  mountX : ℚ
  mountY : ℚ
  pivot : ℚ
  pivotX : ℚ
  pivotY : ℚ
  rotation : ℚ
deriving DecidableEq

/-- A scene node (`CoreNode`). Object references (`children`, `parentNode`)
are stored as node ids and dereferenced through the registry. -/
structure CoreNode where
  props : CoreNodeProps
  /-- Bitmask of pending recomputation kinds; the source initializes it to 6. -/
  recalculationType : ℕ
  hasUpdates : Bool
  globalTransform : Option Matrix3d
  scaleRotateTransform : Option Matrix3d
  localTransform : Option Matrix3d
  clippingRect : Option Rect
  parentClippingRect : Option Rect
  parentId : Option ℕ
  childrenIds : List ℕ
  /-- Bit 1: children list stale; bit 2: parent reference stale. -/
  updateMask : ℕ
  /-- The resolved child object references (`this.children`), stored as ids. -/
  children : List ℕ
  /-- The cached resolved parent object reference (`this.parentNode`). -/
  parentNode : Option ℕ
deriving DecidableEq

/-- The global node registry plus the frame-scoped dirty set (`tree` in the
source): an insertion-ordered id-to-node map and an insertion-ordered dirty
id set, both mirroring JavaScript `Map` semantics. -/
structure NodeTree where
  nodes : List (ℕ × CoreNode)
  dirty : List ℕ
deriving DecidableEq

def emptyTree : NodeTree := ⟨[], []⟩

/-- First-match association lookup over the registry entries
(`Map.prototype.get`). -/
def lookupNodes : List (ℕ × CoreNode) → ℕ → Option CoreNode
  | [], _ => none
  | (k, n) :: rest, id => if k = id then some n else lookupNodes rest id

/-- `_tree.get(id)` without the assertion (a plain map read). -/
def treeLookup (t : NodeTree) (id : ℕ) : Option CoreNode := lookupNodes t.nodes id

/-- `tree.add(node)`: `Map.set` keyed by `node.id` (replaces in place when the
key exists, appends otherwise). -/
def treeAdd (t : NodeTree) (n : CoreNode) : NodeTree :=
  if (lookupNodes t.nodes n.props.id).isSome then
    { t with nodes := t.nodes.map (fun p => if p.1 = n.props.id then (p.1, n) else p) }
  else
    { t with nodes := t.nodes ++ [(n.props.id, n)] }

/-- `Array.from(_tree.values())`: the registered nodes in insertion order. -/
def treeValues (t : NodeTree) : List CoreNode := t.nodes.map (·.2)

/-- `tree.get(id)` for a numeric id: looks the node up and runs
`assertTruthy(resp, ...)`, which is modelled from the spec as faulting on a
missing node ("invariant violations must fault immediately"). -/
def treeGetE (t : NodeTree) (id : ℕ) : Except String CoreNode :=
  match treeLookup t id with
  | some n => Except.ok n
  | none => Except.error "Node not found"

/-- `tree.getNodes(idList)`: for a non-empty id list, maps each id through
`this.get` (whose assertion faults on an unregistered id; the source's
trailing `.filter(Boolean)` can therefore never drop anything, because `get`
only returns `null` for a `null` id and the list holds numbers). For an empty
or undefined list it returns every registered node. -/
def treeGetNodes (t : NodeTree) (idList : Option (List ℕ)) : Except String (List CoreNode) :=
  match idList with
  | some ids =>
    if 0 < ids.length then
      ids.mapM (treeGetE t)
    else
      Except.ok (treeValues t)
  | none => Except.ok (treeValues t)

/-- `tree.markDirty(node)`: `Map.set` on the dirty map, so re-marking an
already-dirty node keeps its original position (idempotent). -/
def markDirty (t : NodeTree) (id : ℕ) : NodeTree :=
  if t.dirty.contains id then t else { t with dirty := t.dirty ++ [id] }

/-- `tree.clearDirtyNodes()`. -/
def clearDirty (t : NodeTree) : NodeTree := { t with dirty := [] }

/-- Replaces the state of the node registered under `id` (the arena rendering
of a mutation performed through an object reference). Unregistered ids are
untouched (scenarios keep every referenced node registered). -/
def updateNode (t : NodeTree) (id : ℕ) (f : CoreNode → CoreNode) : NodeTree :=
  { t with nodes := t.nodes.map (fun p => (p.1, if p.1 = id then f p.2 else p.2)) }

/-- JavaScript `a || b` on numbers (no NaN in `ℚ`, so falsy means zero). -/
def jsOr (a b : ℚ) : ℚ := if a = 0 then b else a

/-- The `zIndex` getter, defined on the chain of property records obtained by
following `parent` references: the head is the node itself, the tail its
ancestors. `z = props.zIndex || 0`; with a parent whose `zIndexLocked` getter
is truthy the result is `z < p ? z : p` where `p = parent.zIndex || 0`
(recursively effective); otherwise `z`. -/
def zIndexChain : List CoreNodeProps → ℚ
  | [] => 0
  | [n] => jsOr n.zIndex 0
  | n :: p :: rest =>
    let z := jsOr n.zIndex 0
    let pz := jsOr (zIndexChain (p :: rest)) 0
    if p.zIndexLocked ≠ 0 then (if z < pz then z else pz) else z

/-- The `worldAlpha` getter on the same ancestor-chain representation:
`props.alpha * (parent?.worldAlpha || 1)`; with no parent the factor is 1, and
a parent whose own world alpha is zero also falls back to 1 (the `|| 1`). -/
def worldAlphaChain : List CoreNodeProps → ℚ
  | [] => 1
  | [n] => n.alpha * 1
  | n :: p :: rest => n.alpha * jsOr (worldAlphaChain (p :: rest)) 1

/-- The parent reference the `parent` getter dereferences: the registry
lookup of `parentId` when the parent is marked stale (update mask bit 2),
the cached `parentNode` otherwise. -/
def CoreNode.parentRef (n : CoreNode) : Option ℕ :=
  if n.updateMask &&& 2 ≠ 0 then n.parentId else n.parentNode

/-- The chain of ancestor property records reachable from a parent reference,
walking `parentRef` through the registry. The fuel bounds the walk (the
JavaScript recursion is unbounded; callers pass the registry size, which
suffices on acyclic parent graphs). -/
def chainOf (t : NodeTree) : ℕ → Option ℕ → List CoreNodeProps
  | _, none => []
  | 0, some _ => []
  | fuel + 1, some id =>
    match treeLookup t id with
    | none => []
    | some n => n.props :: chainOf t fuel n.parentRef

/-- The value of the `zIndex` getter for a node resolved in the registry. -/
def CoreNode.zIndexOf (t : NodeTree) (n : CoreNode) : ℚ :=
  zIndexChain (n.props :: chainOf t t.nodes.length n.parentRef)

/-- The value of the `worldAlpha` getter for a node resolved in the registry. -/
def CoreNode.worldAlphaOf (t : NodeTree) (n : CoreNode) : ℚ :=
  worldAlphaChain (n.props :: chainOf t t.nodes.length n.parentRef)

/-- Stable ascending insertion for `sortChildren`'s comparator
`(a, b) => a.zIndex - b.zIndex` (JavaScript `Array.prototype.sort` is
stable). -/
def insertByKey (key : ℕ → ℚ) (x : ℕ) : List ℕ → List ℕ
  | [] => [x]
  | y :: ys => if key x < key y then x :: y :: ys else y :: insertByKey key x ys

/-- `sortChildren()`: sorts the resolved `children` references by effective
`zIndex`. -/
def CoreNode.sortChildren (t : NodeTree) (n : CoreNode) : CoreNode :=
  let key := fun id =>
    match treeLookup t id with
    | some c => c.zIndexOf t
    | none => 0
  { n with children := n.children.foldr (insertByKey key) [] }

/-- `updateLocalTransform()`: translate by
`(pivot offset - mount offset + position)`, compose with the cached
scale-rotate matrix, translate back by the negative pivot offset. The source
asserts `scaleRotateTransform` is present (the constructor establishes it);
the `getD` default is unreachable. -/
def CoreNode.updateLocalTransform (n : CoreNode) : CoreNode :=
  let sr := n.scaleRotateTransform.getD Matrix3d.identity
  let pivotTranslateX := n.props.pivotX * n.props.width
  let pivotTranslateY := n.props.pivotY * n.props.height
  let mountTranslateX := n.props.mountX * n.props.width
  let mountTranslateY := n.props.mountY * n.props.height
  { n with
    localTransform := some
      (((Matrix3d.translateM
            (pivotTranslateX - mountTranslateX + n.props.x)
            (pivotTranslateY - mountTranslateY + n.props.y)).multiply
          sr).translate (-pivotTranslateX) (-pivotTranslateY)) }

/-- `updateScaleRotateTransform()`: `Matrix3d.rotate(rotation).scale(sx, sy)`
(rotate, then scale), then rerun the local transform. `cosf`/`sinf` supply
the cosine and sine of the rotation angle. -/
def CoreNode.updateScaleRotateTransform (cosf sinf : ℚ → ℚ) (n : CoreNode) : CoreNode :=
  let n :=
    { n with
      scaleRotateTransform := some
        ((Matrix3d.rotateM (cosf n.props.rotation) (sinf n.props.rotation)).scale
          n.props.scaleX n.props.scaleY) }
  n.updateLocalTransform

/-- `calculateClippingRect(parentClippingRect)`. The source compares the
stored `parentClippingRect` against the argument with `===` (object
identity); value equality stands in for it here, which coincides whenever the
same rect object is passed again (the only case the short-circuit is for). -/
def CoreNode.calculateClippingRect (n : CoreNode) (parentClippingRect : Option Rect) :
    CoreNode :=
  match n.globalTransform with
  | none => n
  | some gt =>
    if ¬n.props.clipping ∧ parentClippingRect = none then
      { n with clippingRect := none }
    else if n.parentClippingRect = parentClippingRect ∧ n.clippingRect ≠ none then n
    else
      let isRotated := gt.tb ≠ 0 ∨ gt.tc ≠ 0
      let clippingRect : Option Rect :=
        if n.props.clipping ∧ ¬isRotated then
          some ⟨gt.tx, gt.ty, n.props.width * gt.ta, n.props.height * gt.td⟩
        else none
      let clippingRect : Option Rect :=
        match parentClippingRect, clippingRect with
        | some p, some c => some (intersectRect p c)
        | some p, none => some p
        | none, c => c
      { n with parentClippingRect := parentClippingRect, clippingRect := clippingRect }

/-- `CoreNode.update(delta, parentClippingRect)`: asserts the local transform
exists; re-resolves the children list when update-mask bit 1 is set (via
`tree.getNodes`, which faults on a stale id and returns every registered node
for an empty list); reruns the local transform on recalculation bit 2 and the
scale-rotate transform (which reruns the local transform) on bit 4; composes
the global transform with the parent's current global transform (or copies
the local transform when parentless); recomputes the clipping rect; re-sorts
children on bit 8; finally clears `hasUpdates`, the update mask and the
recalculation mask. The `delta` argument is unused in the source body. -/
def CoreNode.update (cosf sinf : ℚ → ℚ) (t : NodeTree) (n : CoreNode) (_delta : ℚ)
    (parentClippingRect : Option Rect) : Except String CoreNode := do
  match n.localTransform with
  | none => Except.error "localTransform missing"
  | some _ => do
    let n ←
      if n.updateMask &&& 1 ≠ 0 then do
        let cs ← treeGetNodes t (some n.childrenIds)
        pure { n with children := cs.map (·.props.id) }
      else pure n
    let n := if n.recalculationType &&& 2 ≠ 0 then n.updateLocalTransform else n
    let n :=
      if n.recalculationType &&& 4 ≠ 0 then n.updateScaleRotateTransform cosf sinf else n
    let (n, parentOpt) ←
      if n.updateMask &&& 2 ≠ 0 then
        match n.parentId with
        | none => pure ({ n with parentNode := none }, (none : Option CoreNode))
        | some pid => do
          let p ← treeGetE t pid
          pure ({ n with parentNode := some pid }, some p)
      else
        match n.parentNode with
        | none => pure (n, (none : Option CoreNode))
        | some pid => pure (n, treeLookup t pid)
    let parentGlobalTransform := parentOpt.bind (·.globalTransform)
    let lt := n.localTransform.getD Matrix3d.identity
    let n :=
      match parentGlobalTransform with
      | some g => { n with globalTransform := some (g.multiply lt) }
      | none => { n with globalTransform := some lt }
    let n := n.calculateClippingRect parentClippingRect
    let n := if n.recalculationType &&& 8 ≠ 0 then n.sortChildren t else n
    pure { n with hasUpdates := false, updateMask := 0, recalculationType := 0 }

/-- The draw primitive `renderQuads` assembles and hands to
`renderer.addQuad` (the external batching intake is modelled as returning the
primitive). -/
structure Quad where
  width : ℚ
  height : ℚ
  colorTl : ℚ
  colorTr : ℚ
  colorBl : ℚ
  colorBr : ℚ
  zIndex : ℚ
  alpha : ℚ
  clippingRect : Option Rect
  tx : ℚ
  ty : ℚ
  ta : ℚ
  tb : ℚ
  tc : ℚ
  td : ℚ
deriving DecidableEq

/-- `renderQuads(renderer)`: asserts the global transform exists and emits the
quad with the node's size, corner colors, effective z-index, on-demand world
alpha, clipping rect and the six transform coefficients. -/
def CoreNode.renderQuads (t : NodeTree) (n : CoreNode) : Except String Quad :=
  match n.globalTransform with
  | none => Except.error "globalTransform missing"
  | some gt =>
    Except.ok
      { width := n.props.width
        height := n.props.height
        colorTl := n.props.colorTl
        colorTr := n.props.colorTr
        colorBl := n.props.colorBl
        colorBr := n.props.colorBr
        zIndex := n.zIndexOf t
        alpha := n.worldAlphaOf t
        clippingRect := n.clippingRect
        tx := gt.tx
        ty := gt.ty
        ta := gt.ta
        tb := gt.tb
        tc := gt.tc
        td := gt.td }

/-- The `CoreNode` constructor: stores the props, starts with recalculation
mask 6 and no pending updates, runs `updateScaleRotateTransform` (which also
computes the local transform), and registers the node with `tree.add`. -/
def CoreNode.construct (cosf sinf : ℚ → ℚ) (props : CoreNodeProps) : CoreNode :=
  CoreNode.updateScaleRotateTransform cosf sinf
    { props := props
      recalculationType := 6
      hasUpdates := false
      globalTransform := none
      scaleRotateTransform := none
      localTransform := none
      clippingRect := none
      parentClippingRect := none
      parentId := none
      childrenIds := []
      updateMask := 0
      children := []
      parentNode := none }

/-- Node creation as the registry sees it: construct, then `tree.add`. -/
def createNode (cosf sinf : ℚ → ℚ) (t : NodeTree) (props : CoreNodeProps) : NodeTree :=
  treeAdd t (CoreNode.construct cosf sinf props)

/-- `setRecalculationType(type)` on the node registered under `id`:
ORs the type into the recalculation mask, sets `hasUpdates` and marks the
node dirty in the registry; type bit 1 additionally marks the parent
reference stale (`setParentHasUpdates`, skipped when `parentId` is falsy,
i.e. null or 0) and type bit 4 marks the children list stale
(`setChildrenHasUpdates`, skipped when `childrenIds` is empty). -/
def setRecalculationType (t : NodeTree) (id : ℕ) (ty : ℕ) : NodeTree :=
  match treeLookup t id with
  | none => t
  | some n =>
    let n := { n with recalculationType := n.recalculationType ||| ty, hasUpdates := true }
    let n :=
      if ty &&& 1 ≠ 0 then
        match n.parentId with
        | some pid => if pid ≠ 0 then { n with updateMask := n.updateMask ||| 2 } else n
        | none => n
      else n
    let n :=
      if ty &&& 4 ≠ 0 then
        if n.childrenIds.length = 0 then n else { n with updateMask := n.updateMask ||| 1 }
      else n
    markDirty (updateNode t id (fun _ => n)) id

/-- The `x` setter: guarded by `!==`, then records recalculation type 2. -/
def setX (t : NodeTree) (id : ℕ) (value : ℚ) : NodeTree :=
  match treeLookup t id with
  | none => t
  | some n =>
    if n.props.x ≠ value then
      setRecalculationType (updateNode t id (fun m => { m with props.x := value })) id 2
    else t

/-- The `y` setter: guarded by `!==`, recalculation type 2. -/
def setY (t : NodeTree) (id : ℕ) (value : ℚ) : NodeTree :=
  match treeLookup t id with
  | none => t
  | some n =>
    if n.props.y ≠ value then
      setRecalculationType (updateNode t id (fun m => { m with props.y := value })) id 2
    else t

/-- The `width` setter: guarded by `!==`, recalculation type 2. -/
def setWidth (t : NodeTree) (id : ℕ) (value : ℚ) : NodeTree :=
  match treeLookup t id with
  | none => t
  | some n =>
    if n.props.width ≠ value then
      setRecalculationType (updateNode t id (fun m => { m with props.width := value })) id 2
    else t

/-- The `height` setter: guarded by `!==`, recalculation type 2. -/
def setHeight (t : NodeTree) (id : ℕ) (value : ℚ) : NodeTree :=
  match treeLookup t id with
  | none => t
  | some n =>
    if n.props.height ≠ value then
      setRecalculationType (updateNode t id (fun m => { m with props.height := value })) id 2
    else t

/-- The `scaleX` setter: guarded by `!==`, recalculation type 4. -/
def setScaleX (t : NodeTree) (id : ℕ) (value : ℚ) : NodeTree :=
  match treeLookup t id with
  | none => t
  | some n =>
    if n.props.scaleX ≠ value then
      setRecalculationType (updateNode t id (fun m => { m with props.scaleX := value })) id 4
    else t

/-- The `scaleY` setter: guarded by `!==`, recalculation type 4. -/
def setScaleY (t : NodeTree) (id : ℕ) (value : ℚ) : NodeTree :=
  match treeLookup t id with
  | none => t
  | some n =>
    if n.props.scaleY ≠ value then
      setRecalculationType (updateNode t id (fun m => { m with props.scaleY := value })) id 4
    else t

/-- The `scale` convenience setter: assigns through the `scaleX` and `scaleY`
setters in turn. -/
def setScale (t : NodeTree) (id : ℕ) (value : ℚ) : NodeTree :=
  setScaleY (setScaleX t id value) id value

/-- The `rotation` setter: guarded by `!==`, then records recalculation
type 2 (the translate bit — not type 4, which is what triggers
`updateScaleRotateTransform` in `update`). -/
def setRotation (t : NodeTree) (id : ℕ) (value : ℚ) : NodeTree :=
  match treeLookup t id with
  | none => t
  | some n =>
    if n.props.rotation ≠ value then
      setRecalculationType (updateNode t id (fun m => { m with props.rotation := value })) id 2
    else t

/-- The `alpha` setter: unguarded — it always writes and records
recalculation type 4, even when the value is unchanged. -/
def setAlpha (t : NodeTree) (id : ℕ) (value : ℚ) : NodeTree :=
  match treeLookup t id with
  | none => t
  | some _ =>
    setRecalculationType (updateNode t id (fun m => { m with props.alpha := value })) id 4

/-- The `mount` setter: the equality guard is commented out in the source;
writes `mountX`, `mountY` and `mount` and records type 2 unconditionally. -/
def setMount (t : NodeTree) (id : ℕ) (value : ℚ) : NodeTree :=
  match treeLookup t id with
  | none => t
  | some _ =>
    setRecalculationType
      (updateNode t id (fun m =>
        { m with props.mountX := value, props.mountY := value, props.mount := value })) id 2

/-- The `mountX` setter: unguarded, records type 2. -/
def setMountX (t : NodeTree) (id : ℕ) (value : ℚ) : NodeTree :=
  match treeLookup t id with
  | none => t
  | some _ =>
    setRecalculationType (updateNode t id (fun m => { m with props.mountX := value })) id 2

/-- The `mountY` setter: unguarded, records type 2. -/
def setMountY (t : NodeTree) (id : ℕ) (value : ℚ) : NodeTree :=
  match treeLookup t id with
  | none => t
  | some _ =>
    setRecalculationType (updateNode t id (fun m => { m with props.mountY := value })) id 2

/-- The `pivot` setter: guarded on `pivotX !== value || pivotY !== value`;
writes both pivot components and records type 2 on a change. -/
def setPivot (t : NodeTree) (id : ℕ) (value : ℚ) : NodeTree :=
  match treeLookup t id with
  | none => t
  | some n =>
    if n.props.pivotX ≠ value ∨ n.props.pivotY ≠ value then
      setRecalculationType
        (updateNode t id (fun m => { m with props.pivotX := value, props.pivotY := value }))
        id 2
    else t

/-- The `pivotX` setter: unguarded, records type 2. -/
def setPivotX (t : NodeTree) (id : ℕ) (value : ℚ) : NodeTree :=
  match treeLookup t id with
  | none => t
  | some _ =>
    setRecalculationType (updateNode t id (fun m => { m with props.pivotX := value })) id 2

/-- The `pivotY` setter: unguarded, records type 2. -/
def setPivotY (t : NodeTree) (id : ℕ) (value : ℚ) : NodeTree :=
  match treeLookup t id with
  | none => t
  | some _ =>
    setRecalculationType (updateNode t id (fun m => { m with props.pivotY := value })) id 2

/-- The `zIndex` setter: unguarded, records recalculation type 8. -/
def setZIndex (t : NodeTree) (id : ℕ) (value : ℚ) : NodeTree :=
  match treeLookup t id with
  | none => t
  | some _ =>
    setRecalculationType (updateNode t id (fun m => { m with props.zIndex := value })) id 8

/-- The `zIndexLocked` setter: writes the property and nothing else (no dirty
marking, no recalculation bits). -/
def setZIndexLocked (t : NodeTree) (id : ℕ) (value : ℚ) : NodeTree :=
  updateNode t id (fun m => { m with props.zIndexLocked := value })

/-- The `parent` setter, `node.parent = newParent` (the new parent object
reference is its id, `none` for null). Early-returns when
`this.parentId === newParent?.id` (two numbers that agree; `null === undefined`
is false). Otherwise: if the current `parentId` is truthy, looks the old
parent up (asserting it exists), filters this node's id out of its children
list, marks it updated and children-stale; assigns `parentId`; pushes this
node's id onto the new parent's children list, marking it updated and
children-stale; caches `parentNode`; records recalculation type 8. -/
def setParent (t : NodeTree) (cid : ℕ) (newParent : Option ℕ) : Except String NodeTree := do
  match treeLookup t cid with
  | none => pure t
  | some child =>
    if (match child.parentId, newParent with
        | some a, some b => a == b
        | _, _ => false : Bool) then
      pure t
    else do
      let t ←
        match child.parentId with
        | some pid =>
          if pid ≠ 0 then do
            let oldParent ← treeGetE t pid
            let oldParent :=
              { oldParent with
                childrenIds := oldParent.childrenIds.filter (fun i => i ≠ cid)
                hasUpdates := true }
            let oldParent :=
              if oldParent.childrenIds.length = 0 then oldParent
              else { oldParent with updateMask := oldParent.updateMask ||| 1 }
            pure (markDirty (updateNode t pid (fun _ => oldParent)) pid)
          else pure t
        | none => pure t
      let t := updateNode t cid (fun c => { c with parentId := newParent })
      let t :=
        match newParent with
        | some npid =>
          (match treeLookup t npid with
          | none => t
          | some np =>
            let np :=
              { np with childrenIds := np.childrenIds ++ [cid], hasUpdates := true }
            let np :=
              if np.childrenIds.length = 0 then np
              else { np with updateMask := np.updateMask ||| 1 }
            markDirty (updateNode t npid (fun _ => np)) npid)
        | none => t
      let t := updateNode t cid (fun c => { c with parentNode := newParent })
      pure (setRecalculationType t cid 8)

/-- Modelled from the spec: the frame driver (`Stage`, not among the sources)
"asks the registry for dirty nodes, triggers their recomputation, recomputing
in dependency order (parent transforms before children)". `order` lists the
dirty node ids in such a parent-first order; each dirty node is updated once
with its parent's current clipping rect, its new state is written back before
the next node runs, and the dirty set is cleared at the end of the pass. -/
def recomputeDirty (cosf sinf : ℚ → ℚ) (t : NodeTree) (order : List ℕ) :
    Except String NodeTree := do
  let t ←
    order.foldlM
      (fun acc id =>
        if acc.dirty.contains id then
          match treeLookup acc id with
          | none => pure acc
          | some n => do
            let parentClippingRect :=
              match n.parentRef with
              | some pid => (treeLookup acc pid).bind (·.clippingRect)
              | none => none
            let n' ← CoreNode.update cosf sinf acc n 0 parentClippingRect
            pure (updateNode acc id (fun _ => n'))
        else pure acc)
      t
  pure (clearDirty t)

/-- Association-list read of a node/animation property record
(`obj[propName]`), first match. -/
def propGet (k : String) : List (String × ℚ) → Option ℚ
  | [] => none
  | (k', v) :: rest => if k' = k then some v else propGet k rest

/-- Association-list write (`obj[propName] = value`); the key is unique in a
JavaScript object, so every matching entry is replaced. -/
def propSet (k : String) (v : ℚ) (l : List (String × ℚ)) : List (String × ℚ) :=
  l.map (fun p => (p.1, if p.1 = k then v else p.2))

/-- Whether `color` occurs somewhere in a character list. -/
def hasColorSub : List Char → Bool
  | [] => false
  | c :: rest => List.isPrefixOf ['c', 'o', 'l', 'o', 'r'] (c :: rest) || hasColorSub rest

/-- `propName.indexOf('color') !== -1`: the name mentions `color`. -/
def isColorProperty (s : String) : Bool := hasColorSub s.data

/-- The animation settings `CoreAnimation.update`, `reverse` and the
constructor consult. `duration` is `Partial`, so it may be unset; a falsy
(unset or zero) duration completes immediately. `easing` stands for the
timing function resolved from the easing string by the constructor
(`getTimingFunction`, not among the sources), `none` when no (or an empty)
easing string was configured — the two truthiness tests in the source
(`settings.easing` and the destructured `easing`) agree on that. `stopMethod`
is `'reverse' | 'reset' | false`, with `none` for `false`. The `delay`,
`repeat` and `repeatDelay` settings are never read by the modelled methods
and are omitted. -/
structure AnimationSettings where
  duration : Option ℚ
  loop : Bool
  easing : Option (ℚ → ℚ)
  stopMethod : Option String

/-- `CoreAnimation`: the animated node is modelled as its store of numeric
animatable properties (writing `this.node[propName]` goes through the node's
numeric setters; their dirty-flag bookkeeping lives in the scene-graph model
above and does not feed back into the animation). -/
structure CoreAnimation where
  node : List (String × ℚ)
  props : List (String × ℚ)
  settings : AnimationSettings
  propStartValues : List (String × ℚ)
  progress : ℚ
  propsList : List String

/-- The `CoreAnimation` constructor: captures the keys of `props` as
`propsList` and snapshots the node's current value of each as the start
values. -/
def mkAnimation (node : List (String × ℚ)) (props : List (String × ℚ))
    (settings : AnimationSettings) : CoreAnimation :=
  { node := node
    props := props
    settings := settings
    propStartValues := (props.map (·.1)).map (fun k => (k, (propGet k node).getD 0))
    progress := 0
    propsList := props.map (·.1) }

/-- `applyEasing(p, s, e) = (timingFunction(p) || p) * (e - s) + s`; a falsy
(zero) timing-function result falls back to the raw progress. -/
def applyEasing (f : ℚ → ℚ) (p s e : ℚ) : ℚ := jsOr (f p) p * (e - s) + s

/-- One iteration of the property-write loop in `CoreAnimation.update` for
property `propName`: color-typed properties go through `mergeColorProgress`
(from `utils.js`, not among the sources; passed in as `mcp`), short-circuited
when start equals end; numeric properties are interpolated linearly, or via
`applyEasing` when an easing is configured. -/
def animStepValue (mcp : ℚ → ℚ → ℚ → ℚ) (acc : CoreAnimation) (propName : String) : ℚ :=
  let endValue := (propGet propName acc.props).getD 0
  let startValue := (propGet propName acc.propStartValues).getD 0
  if isColorProperty propName then
    if startValue = endValue then startValue
    else
      match acc.settings.easing with
      | some f => mcp startValue endValue (jsOr (f acc.progress) acc.progress)
      | none => mcp startValue endValue acc.progress
  else
    match acc.settings.easing with
    | some f => applyEasing f acc.progress startValue endValue
    | none => startValue + (endValue - startValue) * acc.progress

/-- One iteration of the property-write loop: every branch of the source's
loop body writes exactly `this.node[propName] = <value>`. -/
def animStep (mcp : ℚ → ℚ → ℚ → ℚ) (acc : CoreAnimation) (propName : String) :
    CoreAnimation :=
  { acc with node := propSet propName (animStepValue mcp acc propName) acc.node }

/-- The property-write loop of `CoreAnimation.update` over `propsList`. -/
def writeAnimatedProps (mcp : ℚ → ℚ → ℚ → ℚ) (a : CoreAnimation) : CoreAnimation :=
  a.propsList.foldl (animStep mcp) a

/-- `CoreAnimation.update(dt)`: with a falsy duration, emits `finished`
immediately (the emission is the returned flag). Otherwise accumulates
`progress += dt / duration`; if the new progress exceeds 1 it becomes 0 when
looping and 1 otherwise, and `finished` is emitted; else every animated
property is written at the new progress. -/
def CoreAnimation.update (mcp : ℚ → ℚ → ℚ → ℚ) (a : CoreAnimation) (dt : ℚ) :
    CoreAnimation × Bool :=
  match a.settings.duration with
  | none => (a, true)
  | some duration =>
    if duration = 0 then (a, true)
    else
      let a := { a with progress := a.progress + dt / duration }
      if 1 < a.progress then
        ({ a with progress := if a.settings.loop then 0 else 1 }, true)
      else
        (writeAnimatedProps mcp a, false)

/-- `CoreAnimation.reverse()`: resets progress to 0, swaps the target value
and the captured start value of every animated property in place, and, when
not looping, disables the stop method. -/
def CoreAnimation.reverse (a : CoreAnimation) : CoreAnimation :=
  let a := { a with progress := 0 }
  let a :=
    (a.props.map (·.1)).foldl
      (fun acc propName =>
        let startValue := (propGet propName acc.props).getD 0
        let endValue := (propGet propName acc.propStartValues).getD 0
        { acc with
          props := propSet propName endValue acc.props
          propStartValues := propSet propName startValue acc.propStartValues })
      a
  if a.settings.loop then a
  else { a with settings := { a.settings with stopMethod := none } }

/-- Folding `update` over a sequence of frame deltas, keeping the state. -/
def runAnim (mcp : ℚ → ℚ → ℚ → ℚ) (a : CoreAnimation) (dts : List ℚ) : CoreAnimation :=
  dts.foldl (fun acc dt => (CoreAnimation.update mcp acc dt).1) a

/-- Cosine for scenarios whose rotations are all 0 (cos 0 = 1). -/
def cosZero : ℚ → ℚ := fun _ => 1

/-- Sine for scenarios whose rotations are all 0 (sin 0 = 0). -/
def sinZero : ℚ → ℚ := fun _ => 0

/-- Cosine for a scenario using rotation values 0 and 1, with 1 standing for
a quarter turn (cos 0 = 1, cos of the quarter turn = 0). -/
def cosQuarter : ℚ → ℚ := fun q => if q = 0 then 1 else 0

/-- Sine for the same scenario (sin 0 = 0, sin of the quarter turn = 1). -/
def sinQuarter : ℚ → ℚ := fun q => if q = 0 then 0 else 1

/-- A default property set for scenario nodes: position 0, size 100x100,
opaque, unscaled, unrotated, mount/pivot 0, z 0. -/
def baseProps (id : ℕ) : CoreNodeProps :=
  { id := id
    x := 0, y := 0, width := 100, height := 100
    alpha := 1, clipping := false
    color := 0, colorTop := 0, colorBottom := 0, colorLeft := 0, colorRight := 0
    colorTl := 0, colorTr := 0, colorBl := 0, colorBr := 0
    zIndex := 0, zIndexLocked := 0
    scaleX := 1, scaleY := 1
    mount := 0, mountX := 0, mountY := 0
    pivot := 0, pivotX := 0, pivotY := 0
    rotation := 0 }

/-- Two-frame scenario for the global-transform invariant: parent 1 and
child 2 (child at x = 10) are created and linked, a first frame recomputes
both dirty nodes parent-first; then only `parent.x = 50` is assigned, which
marks just the parent dirty, and the second frame recomputes the dirty set. -/
def runC1 : Except String NodeTree := do
  let t := createNode cosZero sinZero emptyTree (baseProps 1)
  let t := createNode cosZero sinZero t { baseProps 2 with x := 10 }
  let t ← setParent t 2 (some 1)
  let t ← recomputeDirty cosZero sinZero t [1, 2]
  let t := setX t 1 50
  recomputeDirty cosZero sinZero t [1]

/-- After `runC1`: does the child's global transform equal the parent's
global transform times the child's local transform? (`none` would mean the
scenario faulted or a transform was missing.) -/
def c1Holds : Option Bool :=
  match runC1 with
  | Except.error _ => none
  | Except.ok t =>
    match treeLookup t 2, treeLookup t 1 with
    | some c, some p =>
      match p.globalTransform, c.localTransform with
      | some pg, some cl => some (decide (c.globalTransform = some (pg.multiply cl)))
      | _, _ => none
    | _, _ => none

/-- Scenario for the rotation setter: node 1 goes through a clean first frame
(an `x` assignment makes it dirty), then is assigned `rotation = 1` (the
quarter turn) and recomputed. -/
def runC2 : Except String NodeTree := do
  let t := createNode cosQuarter sinQuarter emptyTree (baseProps 1)
  let t := setX t 1 5
  let t ← recomputeDirty cosQuarter sinQuarter t [1]
  let t := setRotation t 1 1
  recomputeDirty cosQuarter sinQuarter t [1]

/-- The node state after `runC2` (the scenario does not fault). -/
def nodeC2 : Option CoreNode := runC2.toOption.bind (fun t => treeLookup t 1)

/-- Registry with a single registered node (id 1) for the equal-assignment
and stale-id scenarios. -/
def treeOneNode : NodeTree := createNode cosZero sinZero emptyTree (baseProps 1)

/-- Scenario for the empty-id-list resolution: grandparent 1, parent 2,
child 3; the child is parented to 2 and then immediately reparented to 1
before any frame runs, leaving node 2 with an empty `childrenIds` but a
stale-children update mask. -/
def runC10 : Except String NodeTree := do
  let t := createNode cosZero sinZero emptyTree (baseProps 1)
  let t := createNode cosZero sinZero t (baseProps 2)
  let t := createNode cosZero sinZero t (baseProps 3)
  let t ← setParent t 3 (some 2)
  setParent t 3 (some 1)

/-- The registry state after `runC10` (the scenario does not fault). -/
def treeC10 : NodeTree := runC10.toOption.getD emptyTree

/-- Running `CoreNode.update` on node 2 in that state and extracting the
resolved children list. -/
def updC10 : Except String (List ℕ) :=
  match treeLookup treeC10 2 with
  | some p => (CoreNode.update cosZero sinZero treeC10 p 0 none).map (·.children)
  | none => Except.error "missing"

/-- Scenario for the world-alpha fallback: parent 1 has alpha 0, child 2 has
alpha 1/2; one frame recomputes both. -/
def runC7 : Except String NodeTree := do
  let t := createNode cosZero sinZero emptyTree { baseProps 1 with alpha := 0 }
  let t := createNode cosZero sinZero t { baseProps 2 with alpha := 1 / 2 }
  let t ← setParent t 2 (some 1)
  recomputeDirty cosZero sinZero t [1, 2]

/-- The registry state after `runC7` (the scenario does not fault). -/
def treeC7 : NodeTree := runC7.toOption.getD emptyTree

/-- The primitive extracted from the child node in `treeC7`. -/
def quadC7 : Except String Quad :=
  match treeLookup treeC7 2 with
  | some c => c.renderQuads treeC7
  | none => Except.error "missing"

/-- The value the claim predicts for the child's world alpha in `treeC7`:
its own alpha times the product of all ancestors' alphas. -/
def claimedAlphaC7 : ℚ :=
  match treeLookup treeC7 2 with
  | some c => c.props.alpha * ((chainOf treeC7 treeC7.nodes.length c.parentRef).map (·.alpha)).prod
  | none => 1

/-- A stand-in for `mergeColorProgress` where a concrete function is needed;
no scenario animates a color property, so it is never consulted. -/
def mcpTriv : ℚ → ℚ → ℚ → ℚ := fun s _ _ => s

/-- An animation of `x` from 0 to 100 with duration 1, no loop, no easing. -/
def animC9 : CoreAnimation :=
  mkAnimation [("x", 0)] [("x", 100)]
    { duration := some 1, loop := false, easing := none, stopMethod := none }

/-- Run `animC9` with two advances of 3/5 (the second overshoots), reverse,
and run the same advances again. -/
def animC9final : CoreAnimation :=
  runAnim mcpTriv (CoreAnimation.reverse (runAnim mcpTriv animC9 [3 / 5, 3 / 5])) [3 / 5, 3 / 5]

/-- Witness for the amended C3 theorem at the one-node registry. -/
def nodeOne : CoreNode := (treeLookup treeOneNode 1).getD (CoreNode.construct cosZero sinZero (baseProps 0))

/-- Witness for C6: parent locked with z 2, child z 5, clamped to 2. -/
def zPropsChild : CoreNodeProps := { baseProps 1 with zIndex := 5 }

def zPropsParent : CoreNodeProps := { baseProps 2 with zIndex := 2, zIndexLocked := 1 }

/-- Witness for the amended C7 theorem: alphas 1/2 and 1/3 multiply. -/
def alphaPropsChild : CoreNodeProps := { baseProps 1 with alpha := 1 / 2 }

def alphaPropsParent : CoreNodeProps := { baseProps 2 with alpha := 1 / 3 }

/-- Witness animation for C8: x from 0 to 10, duration 2, advanced by 1. -/
def animC8 : CoreAnimation :=
  mkAnimation [("x", 0)] [("x", 10)]
    { duration := some 2, loop := false, easing := none, stopMethod := none }

/-- A three-node registry for the C5 witness: nodes 1, 2, 3 with node 3
parented to node 1. -/
def treeC5 : NodeTree :=
  ((do
    let t := createNode cosZero sinZero emptyTree (baseProps 1)
    let t := createNode cosZero sinZero t (baseProps 2)
    let t := createNode cosZero sinZero t (baseProps 3)
    setParent t 3 (some 1) : Except String NodeTree)).toOption.getD emptyTree

/-- A placeholder node for `Option.getD` on lookups that are in fact present. -/
def dummyNode : CoreNode := CoreNode.construct cosZero sinZero (baseProps 0)

def nodeC5child : CoreNode := (treeLookup treeC5 3).getD dummyNode

def nodeC5old : CoreNode := (treeLookup treeC5 1).getD dummyNode

def nodeC5new : CoreNode := (treeLookup treeC5 2).getD dummyNode

/-- C1: after a frame's recomputation pass, a node with a parent should have
global transform = parent's global transform x its local transform. The
two-frame scenario `runC1` falsifies this: assigning only `parent.x = 50`
marks just the parent dirty (position changes propagate no obligation to
descendants), so the second frame updates the parent alone and the child's
global transform is left composed with the parent's old transform. -/
theorem c1_global_transform_invariant_fails :
    c1Holds = some false ∧
    (runC1.toOption.bind fun t => (treeLookup t 1).bind (·.globalTransform)) =
      some (Matrix3d.translateM 50 0) ∧
    (runC1.toOption.bind fun t => (treeLookup t 2).bind (·.globalTransform)) =
      some (Matrix3d.translateM 10 0) ∧
    (runC1.toOption.bind fun t => (treeLookup t 2).bind (·.localTransform)) =
      some (Matrix3d.translateM 10 0) ∧
    (Matrix3d.translateM 50 0).multiply (Matrix3d.translateM 10 0) ≠
      Matrix3d.translateM 10 0 := by
  decide

/-- C2: assigning a new `rotation` records recalculation type 2 (translate),
not 4 (transform), so the next `update` reruns only `updateLocalTransform`
with the stale scale-rotate matrix: after `runC2` the node carries
rotation 1 but its scale-rotate matrix is still the identity of rotation 0,
and rerunning `updateScaleRotateTransform` by hand would produce the
quarter-turn matrix instead. -/
theorem c2_rotation_change_not_reflected :
    nodeC2.map (fun n => n.props.rotation) = some 1 ∧
    nodeC2.map (fun n => n.scaleRotateTransform) = some (some Matrix3d.identity) ∧
    nodeC2.map (fun n => n.localTransform) = some (some (Matrix3d.translateM 5 0)) ∧
    nodeC2.map
        (fun n => (n.updateScaleRotateTransform cosQuarter sinQuarter).scaleRotateTransform) =
      some (some (Matrix3d.rotateM 0 1)) ∧
    Matrix3d.rotateM 0 1 ≠ Matrix3d.identity := by
  decide

/-- C3 counterexample: the `alpha` setter (like `mountX`) has no equality
guard, so assigning the node's current alpha still marks it dirty in the
registry, refuting "every property setter ... is a no-op on an equal
assignment". -/
theorem c3_equal_alpha_assignment_marks_dirty :
    treeOneNode.dirty = [] ∧
    (setAlpha treeOneNode 1 ((baseProps 1).alpha)).dirty = [1] ∧
    (setMountX treeOneNode 1 ((baseProps 1).mountX)).dirty = [1] ∧
    setAlpha treeOneNode 1 ((baseProps 1).alpha) ≠ treeOneNode := by
  decide

/-- C4: with only node 1 registered, `tree.getNodes([1, 2])` faults on the
stale id 2 (the assertion inside `tree.get`) instead of silently dropping
it, while a fully-resolvable list is returned in order. -/
theorem c4_getNodes_faults_on_stale_id :
    treeGetNodes treeOneNode (some [1, 2]) = Except.error "Node not found" ∧
    (treeGetNodes treeOneNode (some [1])).map (List.map (fun n => n.props.id)) =
      Except.ok [1] := by
  exact ⟨by decide, by decide⟩

/-- C7 counterexample: with parent alpha 0 and child alpha 1/2, the world
alpha extracted into the child's primitive is 1/2 (the `|| 1` fallback turns
the parent's zero world alpha into 1), not the claimed own-alpha times
ancestor-alpha product, which is 0. -/
theorem c7_world_alpha_zero_ancestor_cex :
    quadC7.map Quad.alpha = Except.ok (1 / 2) ∧
    claimedAlphaC7 = 0 ∧
    quadC7.map Quad.alpha ≠ Except.ok claimedAlphaC7 := by
  decide

/-- C9 counterexample: an `x` animation 0 to 100 with duration 1, advanced by
3/5 twice (the second advance overshoots, skipping the final write), then
reversed and advanced the same way, ends with x = 40, not the original 0. -/
theorem c9_overshoot_round_trip_cex :
    propGet "x" animC9.node = some 0 ∧
    propGet "x" animC9final.node = some 40 ∧
    propGet "x" animC9final.node ≠ propGet "x" animC9.node := by
  decide

/-- C10: `tree.getNodes` on an empty (or undefined) id list returns every
registered node; in the `runC10` scenario (child added to node 2 and then
reparented away before any frame) node 2 is left with an empty `childrenIds`
and the stale-children bit still set, so running its `update` resolves its
children list to all three registered nodes. -/
theorem c10_empty_id_list_resolves_all_nodes :
    (∀ t, treeGetNodes t (some []) = Except.ok (treeValues t) ∧
      treeGetNodes t none = Except.ok (treeValues t)) ∧
    runC10 = Except.ok treeC10 ∧
    (treeLookup treeC10 2).map (fun n => (n.childrenIds, n.updateMask &&& 1)) =
      some ([], 1) ∧
    updC10 = Except.ok [1, 2, 3] ∧
    (treeValues treeC10).map (fun n => n.props.id) = [1, 2, 3] := by
  refine ⟨fun t => ⟨rfl, rfl⟩, by decide, by decide, by decide, by decide⟩

theorem jsOr_zero (a : ℚ) : jsOr a 0 = a := by
  unfold jsOr; split <;> simp_all

theorem lookupNodes_map_self (l : List (ℕ × CoreNode)) (id : ℕ) (f : CoreNode → CoreNode)
    (m : CoreNode) (h : lookupNodes l id = some m) :
    lookupNodes (l.map fun p => (p.1, if p.1 = id then f p.2 else p.2)) id = some (f m) := by
  induction l with
  | nil => simp [lookupNodes] at h
  | cons hd tl ih =>
    obtain ⟨k, v⟩ := hd
    simp only [List.map_cons, lookupNodes]
    by_cases hk : k = id
    · simp only [lookupNodes] at h
      rw [if_pos hk] at h
      cases h
      rw [if_pos hk, if_pos hk]
    · simp only [lookupNodes] at h
      rw [if_neg hk] at h
      rw [if_neg hk]
      exact ih h

theorem lookupNodes_map_ne (l : List (ℕ × CoreNode)) (id j : ℕ) (f : CoreNode → CoreNode)
    (h : j ≠ id) :
    lookupNodes (l.map fun p => (p.1, if p.1 = id then f p.2 else p.2)) j = lookupNodes l j := by
  induction l with
  | nil => rfl
  | cons hd tl ih =>
    obtain ⟨k, v⟩ := hd
    simp only [List.map_cons, lookupNodes]
    by_cases hkj : k = j
    · rw [if_pos hkj, if_pos hkj]
      have hk : ¬k = id := fun hk => h (hkj ▸ hk ▸ rfl)
      rw [if_neg hk]
    · rw [if_neg hkj, if_neg hkj]
      exact ih

theorem treeLookup_updateNode_self (t : NodeTree) (id : ℕ) (f : CoreNode → CoreNode)
    (m : CoreNode) (h : treeLookup t id = some m) :
    treeLookup (updateNode t id f) id = some (f m) :=
  lookupNodes_map_self t.nodes id f m h

theorem treeLookup_updateNode_ne (t : NodeTree) (id j : ℕ) (f : CoreNode → CoreNode)
    (h : j ≠ id) : treeLookup (updateNode t id f) j = treeLookup t j :=
  lookupNodes_map_ne t.nodes id j f h

theorem treeLookup_markDirty (t : NodeTree) (id j : ℕ) :
    treeLookup (markDirty t id) j = treeLookup t j := by
  unfold markDirty treeLookup; split <;> rfl

theorem mem_markDirty_self (t : NodeTree) (id : ℕ) : id ∈ (markDirty t id).dirty := by
  unfold markDirty
  split
  · next h => simpa using h
  · simp

theorem mem_dirty_setRecalculationType (t : NodeTree) (id : ℕ) (ty : ℕ) (n : CoreNode)
    (h : treeLookup t id = some n) : id ∈ (setRecalculationType t id ty).dirty := by
  unfold setRecalculationType
  rw [h]
  exact mem_markDirty_self _ _

/-- C3 (amended): the guarded setters — x, y, width, height, scaleX, scaleY,
scale (when both scale components already hold the value), rotation and pivot
(when both pivot components already hold the value) — are observational
no-ops on an equal assignment: the registry (node states and dirty set) is
returned unchanged. The unguarded alpha and mountX setters, by contrast, mark
the node dirty even when handed its current value. -/
theorem c3_guarded_setters_noop (t : NodeTree) (id : ℕ) (n : CoreNode)
    (h : treeLookup t id = some n) :
    setX t id n.props.x = t ∧
    setY t id n.props.y = t ∧
    setWidth t id n.props.width = t ∧
    setHeight t id n.props.height = t ∧
    setScaleX t id n.props.scaleX = t ∧
    setScaleY t id n.props.scaleY = t ∧
    (n.props.scaleY = n.props.scaleX → setScale t id n.props.scaleX = t) ∧
    setRotation t id n.props.rotation = t ∧
    (n.props.pivotY = n.props.pivotX → setPivot t id n.props.pivotX = t) ∧
    id ∈ (setAlpha t id n.props.alpha).dirty ∧
    id ∈ (setMountX t id n.props.mountX).dirty := by
  refine ⟨?_, ?_, ?_, ?_, ?_, ?_, ?_, ?_, ?_, ?_, ?_⟩
  · simp [setX, h]
  · simp [setY, h]
  · simp [setWidth, h]
  · simp [setHeight, h]
  · simp [setScaleX, h]
  · simp [setScaleY, h]
  · intro hxy
    simp [setScale, setScaleX, setScaleY, h, hxy]
  · simp [setRotation, h]
  · intro hxy
    simp [setPivot, h, hxy]
  · have h2 := treeLookup_updateNode_self t id
      (fun m => { m with props.alpha := n.props.alpha }) n h
    unfold setAlpha
    rw [h]
    exact mem_dirty_setRecalculationType _ _ _ _ h2
  · have h2 := treeLookup_updateNode_self t id
      (fun m => { m with props.mountX := n.props.mountX }) n h
    unfold setMountX
    rw [h]
    exact mem_dirty_setRecalculationType _ _ _ _ h2

theorem c3_guarded_setters_noop_witness :
    setX treeOneNode 1 nodeOne.props.x = treeOneNode ∧
    setY treeOneNode 1 nodeOne.props.y = treeOneNode ∧
    setWidth treeOneNode 1 nodeOne.props.width = treeOneNode ∧
    setHeight treeOneNode 1 nodeOne.props.height = treeOneNode ∧
    setScaleX treeOneNode 1 nodeOne.props.scaleX = treeOneNode ∧
    setScaleY treeOneNode 1 nodeOne.props.scaleY = treeOneNode ∧
    (nodeOne.props.scaleY = nodeOne.props.scaleX →
      setScale treeOneNode 1 nodeOne.props.scaleX = treeOneNode) ∧
    setRotation treeOneNode 1 nodeOne.props.rotation = treeOneNode ∧
    (nodeOne.props.pivotY = nodeOne.props.pivotX →
      setPivot treeOneNode 1 nodeOne.props.pivotX = treeOneNode) ∧
    1 ∈ (setAlpha treeOneNode 1 nodeOne.props.alpha).dirty ∧
    1 ∈ (setMountX treeOneNode 1 nodeOne.props.mountX).dirty :=
  c3_guarded_setters_noop treeOneNode 1 nodeOne (by decide)

/-- C6: for a node whose parent has z-index locking enabled (a truthy
`zIndexLocked`), the effective z-index — the `zIndex` getter's value on the
node's ancestor chain — never exceeds the parent's effective z-index,
whatever z value the node holds. -/
theorem c6_zindex_locked_clamped (n p : CoreNodeProps) (rest : List CoreNodeProps)
    (h : p.zIndexLocked ≠ 0) :
    zIndexChain (n :: p :: rest) ≤ zIndexChain (p :: rest) := by
  have e : zIndexChain (n :: p :: rest) =
      (if p.zIndexLocked ≠ 0 then
         (if jsOr n.zIndex 0 < jsOr (zIndexChain (p :: rest)) 0 then jsOr n.zIndex 0
          else jsOr (zIndexChain (p :: rest)) 0)
       else jsOr n.zIndex 0) := rfl
  rw [e, if_pos h, jsOr_zero, jsOr_zero]
  split
  · next hlt => exact le_of_lt hlt
  · exact le_refl _

theorem c6_zindex_locked_clamped_witness :
    zIndexChain [zPropsChild, zPropsParent] ≤ zIndexChain [zPropsParent] :=
  c6_zindex_locked_clamped zPropsChild zPropsParent [] (by decide)

/-- C7 (amended): the world alpha equals the node's own alpha times the
product of all ancestors' alphas provided no ancestor's alpha is zero; the
`|| 1` fallback makes the formula fail otherwise (see the counterexample). -/
theorem c7_world_alpha_product (n : CoreNodeProps) (anc : List CoreNodeProps)
    (h : ∀ m ∈ anc, m.alpha ≠ 0) :
    worldAlphaChain (n :: anc) = n.alpha * (anc.map (fun m => m.alpha)).prod := by
  induction anc generalizing n with
  | nil => simp [worldAlphaChain]
  | cons p rest ih =>
    have hp := ih p (fun m hm => h m (List.mem_cons_of_mem _ hm))
    have hpa : p.alpha ≠ 0 := h p (List.mem_cons_self _ _)
    have hprod : ((rest.map (fun m => m.alpha)).prod : ℚ) ≠ 0 := by
      apply List.prod_ne_zero
      intro hx
      obtain ⟨m, hm, hma⟩ := List.mem_map.mp hx
      exact h m (List.mem_cons_of_mem _ hm) hma
    have hne : worldAlphaChain (p :: rest) ≠ 0 := by
      rw [hp]; exact mul_ne_zero hpa hprod
    have e : worldAlphaChain (n :: p :: rest) =
        n.alpha * jsOr (worldAlphaChain (p :: rest)) 1 := rfl
    rw [e]
    unfold jsOr
    rw [if_neg hne, hp, List.map_cons, List.prod_cons]

theorem c7_world_alpha_product_witness :
    worldAlphaChain [alphaPropsChild, alphaPropsParent] =
      alphaPropsChild.alpha * ([alphaPropsParent].map (fun m => m.alpha)).prod :=
  c7_world_alpha_product alphaPropsChild [alphaPropsParent] (by decide)

theorem foldl_animStep_progress (mcp : ℚ → ℚ → ℚ → ℚ) (l : List String) (a : CoreAnimation) :
    (l.foldl (animStep mcp) a).progress = a.progress := by
  induction l generalizing a with
  | nil => rfl
  | cons hd tl ih => exact ih _

theorem foldl_animStep_props (mcp : ℚ → ℚ → ℚ → ℚ) (l : List String) (a : CoreAnimation) :
    (l.foldl (animStep mcp) a).props = a.props := by
  induction l generalizing a with
  | nil => rfl
  | cons hd tl ih => exact ih _

theorem foldl_animStep_propStartValues (mcp : ℚ → ℚ → ℚ → ℚ) (l : List String)
    (a : CoreAnimation) : (l.foldl (animStep mcp) a).propStartValues = a.propStartValues := by
  induction l generalizing a with
  | nil => rfl
  | cons hd tl ih => exact ih _

theorem foldl_animStep_settings (mcp : ℚ → ℚ → ℚ → ℚ) (l : List String) (a : CoreAnimation) :
    (l.foldl (animStep mcp) a).settings = a.settings := by
  induction l generalizing a with
  | nil => rfl
  | cons hd tl ih => exact ih _

theorem foldl_animStep_propsList (mcp : ℚ → ℚ → ℚ → ℚ) (l : List String) (a : CoreAnimation) :
    (l.foldl (animStep mcp) a).propsList = a.propsList := by
  induction l generalizing a with
  | nil => rfl
  | cons hd tl ih => exact ih _

theorem writeAnimatedProps_progress (mcp : ℚ → ℚ → ℚ → ℚ) (a : CoreAnimation) :
    (writeAnimatedProps mcp a).progress = a.progress :=
  foldl_animStep_progress mcp a.propsList a

/-- C8: advancing an animation. With a falsy (unset or zero) duration,
`update` signals completion immediately and changes nothing. Otherwise the
advance adds `dt / duration` to the progress; when the new progress exceeds
1 it becomes 0 when looping and 1 otherwise, with completion signaled, and
when it does not, the properties are written at the new progress with no
completion signal. A completed non-looping animation stays clamped at
progress 1 on any further positive advance (terminal for the run). -/
theorem c8_animation_advance (mcp : ℚ → ℚ → ℚ → ℚ) (a : CoreAnimation) (dt : ℚ) :
    ((a.settings.duration = none ∨ a.settings.duration = some 0) →
      CoreAnimation.update mcp a dt = (a, true)) ∧
    (∀ d : ℚ, a.settings.duration = some d → d ≠ 0 →
      ((1 < a.progress + dt / d →
          CoreAnimation.update mcp a dt =
            ({ a with progress := if a.settings.loop then 0 else 1 }, true)) ∧
       (¬1 < a.progress + dt / d →
          CoreAnimation.update mcp a dt =
            (writeAnimatedProps mcp { a with progress := a.progress + dt / d }, false) ∧
          (CoreAnimation.update mcp a dt).1.progress = a.progress + dt / d ∧
          (CoreAnimation.update mcp a dt).2 = false) ∧
       (a.progress = 1 → a.settings.loop = false → 0 < dt / d →
          CoreAnimation.update mcp a dt = (a, true)))) := by
  constructor
  · intro h
    unfold CoreAnimation.update
    rcases h with h | h <;> simp [h]
  · intro d hdur hd0
    refine ⟨?_, ?_, ?_⟩
    · intro hgt
      simp [CoreAnimation.update, hdur, hd0, hgt]
    · intro hle
      refine ⟨?_, ?_, ?_⟩
      · simp [CoreAnimation.update, hdur, hd0, hle]
      · simp [CoreAnimation.update, hdur, hd0, hle, writeAnimatedProps_progress]
      · simp [CoreAnimation.update, hdur, hd0, hle]
    · intro hprog hloop hdt
      have hgt : 1 < a.progress + dt / d := by rw [hprog]; linarith
      have heta : ({ a with progress := (1 : ℚ) } : CoreAnimation) = a := by
        rw [← hprog]
      simp [CoreAnimation.update, hdur, hd0, hgt, hloop, heta]

theorem c8_animation_advance_witness :
    (CoreAnimation.update mcpTriv animC8 1).1.progress = animC8.progress + 1 / 2 ∧
    (CoreAnimation.update mcpTriv animC8 1).2 = false := by
  have h := ((c8_animation_advance mcpTriv animC8 1).2 2 rfl (by norm_num)).2.1 (by decide)
  exact ⟨h.2.1, h.2.2⟩

theorem propGet_propSet_self (k : String) (v : ℚ) (l : List (String × ℚ)) (w : ℚ)
    (h : propGet k l = some w) : propGet k (propSet k v l) = some v := by
  induction l with
  | nil => simp [propGet] at h
  | cons hd tl ih =>
    obtain ⟨k', v'⟩ := hd
    simp only [propSet, List.map_cons, propGet]
    by_cases hk : k' = k
    · rw [if_pos hk, if_pos hk]
    · rw [if_neg hk]
      simp only [propGet] at h
      rw [if_neg hk] at h
      exact ih h

theorem propSet_propSet (k : String) (v w : ℚ) (l : List (String × ℚ)) :
    propSet k v (propSet k w l) = propSet k v l := by
  induction l with
  | nil => rfl
  | cons hd tl ih =>
    obtain ⟨k', v'⟩ := hd
    simp only [propSet, List.map_cons] at ih ⊢
    by_cases hk : k' = k
    · simp only [if_pos hk]
      exact congrArg (List.cons _) ih
    · simp only [if_neg hk]
      exact congrArg (List.cons _) ih

/-- An advance sequence that stays within the duration: every tick of a
non-color, non-eased single-property animation accumulates `dt / duration`
into the progress and rewrites the property to the linear interpolation at
the new progress; targets, start values, settings and the property list are
untouched. -/
theorem runAnim_linear_exact (mcp : ℚ → ℚ → ℚ → ℚ) (name : String)
    (hcol : isColorProperty name = false) (d s0 e : ℚ) (hd : 0 < d) :
    ∀ (dts : List ℚ) (a : CoreAnimation),
      a.settings.duration = some d → a.settings.easing = none →
      a.propsList = [name] → a.props = [(name, e)] → a.propStartValues = [(name, s0)] →
      (∀ x ∈ dts, 0 ≤ x) → a.progress + dts.sum / d ≤ 1 →
      (runAnim mcp a dts).progress = a.progress + dts.sum / d ∧
      (runAnim mcp a dts).props = a.props ∧
      (runAnim mcp a dts).propStartValues = a.propStartValues ∧
      (runAnim mcp a dts).settings = a.settings ∧
      (runAnim mcp a dts).propsList = a.propsList ∧
      (runAnim mcp a dts).node =
        (if dts.isEmpty then a.node
         else propSet name (s0 + (e - s0) * (a.progress + dts.sum / d)) a.node) := by
  intro dts
  induction dts with
  | nil =>
    intro a _ _ _ _ _ _ _
    simp [runAnim]
  | cons dt rest ih =>
    intro a hdur heas hlist hprops hstart hnn hle
    have hd0 : d ≠ 0 := ne_of_gt hd
    have hrest_nn : ∀ x ∈ rest, 0 ≤ x := fun x hx => hnn x (List.mem_cons_of_mem _ hx)
    have hrsum : 0 ≤ rest.sum := List.sum_nonneg hrest_nn
    have hsplit : (dt :: rest).sum / d = dt / d + rest.sum / d := by
      rw [List.sum_cons, add_div]
    have hrnn : 0 ≤ rest.sum / d := div_nonneg hrsum (le_of_lt hd)
    have hle' : a.progress + (dt / d + rest.sum / d) ≤ 1 := by rw [← hsplit]; exact hle
    have hstep_le : a.progress + dt / d ≤ 1 := by linarith
    have hnotgt : ¬1 < a.progress + dt / d := not_lt.mpr hstep_le
    have hstep : CoreAnimation.update mcp a dt =
        (writeAnimatedProps mcp { a with progress := a.progress + dt / d }, false) := by
      unfold CoreAnimation.update
      rw [hdur]
      simp [hd0, hnotgt]
    have hw : writeAnimatedProps mcp { a with progress := a.progress + dt / d } =
        { a with progress := a.progress + dt / d
                 node := propSet name (s0 + (e - s0) * (a.progress + dt / d)) a.node } := by
      unfold writeAnimatedProps
      simp [hlist, animStep, animStepValue, hcol, heas, hprops, hstart, propGet, applyEasing]
    have hfld : (CoreAnimation.update mcp a dt).1 =
        { a with progress := a.progress + dt / d
                 node := propSet name (s0 + (e - s0) * (a.progress + dt / d)) a.node } := by
      rw [hstep]
      exact hw
    have hrun : runAnim mcp a (dt :: rest) =
        runAnim mcp
          { a with progress := a.progress + dt / d
                   node := propSet name (s0 + (e - s0) * (a.progress + dt / d)) a.node }
          rest := by
      unfold runAnim
      rw [List.foldl_cons, hfld]
    have harec := ih
      { a with progress := a.progress + dt / d
               node := propSet name (s0 + (e - s0) * (a.progress + dt / d)) a.node }
      hdur heas hlist hprops hstart hrest_nn (by rw [← add_assoc] at hle'; exact hle')
    obtain ⟨hprog, hprops2, hstart2, hset2, hlist2, hnode2⟩ := harec
    refine ⟨?_, ?_, ?_, ?_, ?_, ?_⟩
    · rw [hrun, hprog, hsplit]
      ring
    · rw [hrun]; exact hprops2
    · rw [hrun]; exact hstart2
    · rw [hrun]; exact hset2
    · rw [hrun]; exact hlist2
    · rw [hrun, hnode2]
      by_cases hre : rest = []
    
      · subst hre
        simp [hsplit]
      · have hre' : rest.isEmpty = false := by cases rest with
          | nil => exact absurd rfl hre
          | cons _ _ => rfl
        have hcons : (dt :: rest).isEmpty = false := rfl
        rw [hre', hcons]
        simp only [if_neg, Bool.false_eq_true, if_false]
        rw [propSet_propSet, hsplit]
        ring_nf

/-- `reverse()` on a single-property animation: progress returns to 0, the
target and the captured start value swap, and the node, property list,
duration and easing are untouched (only `stopMethod` may be cleared). -/
theorem reverse_single (a : CoreAnimation) (name : String) (ev sv : ℚ)
    (hp : a.props = [(name, ev)]) (hs : a.propStartValues = [(name, sv)]) :
    (CoreAnimation.reverse a).props = [(name, sv)] ∧
    (CoreAnimation.reverse a).propStartValues = [(name, ev)] ∧
    (CoreAnimation.reverse a).progress = 0 ∧
    (CoreAnimation.reverse a).node = a.node ∧
    (CoreAnimation.reverse a).propsList = a.propsList ∧
    (CoreAnimation.reverse a).settings.duration = a.settings.duration ∧
    (CoreAnimation.reverse a).settings.easing = a.settings.easing := by
  by_cases hl : a.settings.loop <;>
    simp [CoreAnimation.reverse, hl, propGet, propSet, hp, hs]

/-- C9 (amended): for a non-color property animated without easing, running
the animation with nonnegative advances that accumulate exactly to the
duration, reversing, and running again with advances that accumulate exactly
to the duration restores the property to its exact original value. (An
advance sequence that overshoots skips the final write and breaks the round
trip — see the counterexample.) -/
theorem c9_round_trip_exact (mcp : ℚ → ℚ → ℚ → ℚ) (node0 : List (String × ℚ))
    (s0 e d : ℚ) (hd : 0 < d) (hx : propGet "x" node0 = some s0)
    (loop : Bool) (sm : Option String) (dts1 dts2 : List ℚ)
    (h1 : ∀ x ∈ dts1, 0 ≤ x) (hs1 : dts1.sum = d) (hne1 : dts1 ≠ [])
    (h2 : ∀ x ∈ dts2, 0 ≤ x) (hs2 : dts2.sum = d) (hne2 : dts2 ≠ []) :
    propGet "x"
      (runAnim mcp
        (CoreAnimation.reverse
          (runAnim mcp
            (mkAnimation node0 [("x", e)]
              { duration := some d, loop := loop, easing := none, stopMethod := sm })
            dts1))
        dts2).node = some s0 := by
  have hd0 : d ≠ 0 := ne_of_gt hd
  have hcol : isColorProperty "x" = false := rfl
  set a0 : CoreAnimation :=
    mkAnimation node0 [("x", e)]
      { duration := some d, loop := loop, easing := none, stopMethod := sm } with ha0def
  have ha0start : a0.propStartValues = [("x", s0)] := by
    simp [ha0def, mkAnimation, hx]
  have hsum1 : a0.progress + dts1.sum / d ≤ 1 := by
    have : a0.progress = 0 := rfl
    rw [this, hs1, div_self hd0]
    norm_num
  have hrun1 := runAnim_linear_exact mcp "x" hcol d s0 e hd dts1 a0 rfl rfl rfl rfl
    ha0start h1 hsum1
  obtain ⟨hprog1, hprops1, hstart1, hset1, hlist1, hnode1⟩ := hrun1
  set a1 : CoreAnimation := runAnim mcp a0 dts1 with ha1def
  have ha1props : a1.props = [("x", e)] := hprops1
  have ha1start : a1.propStartValues = [("x", s0)] := hstart1.trans ha0start
  have hrev := reverse_single a1 "x" e s0 ha1props ha1start
  obtain ⟨hrprops, hrstart, hrprog, hrnode, hrlist, hrdur, hreas⟩ := hrev
  set a2 : CoreAnimation := CoreAnimation.reverse a1 with ha2def
  have ha2dur : a2.settings.duration = some d := by
    rw [hrdur, show a1.settings = a0.settings from hset1]
    rfl
  have ha2eas : a2.settings.easing = none := by
    rw [hreas, show a1.settings = a0.settings from hset1]
    rfl
  have ha2list : a2.propsList = ["x"] := by
    rw [hrlist, show a1.propsList = a0.propsList from hlist1]
    rfl
  have hsum2 : a2.progress + dts2.sum / d ≤ 1 := by
    rw [hrprog, hs2, div_self hd0]
    norm_num
  have hrun2 := runAnim_linear_exact mcp "x" hcol d e s0 hd dts2 a2 ha2dur ha2eas ha2list
    hrprops hrstart h2 hsum2
  obtain ⟨hprog2, _, _, _, _, hnode2⟩ := hrun2
  have hne2' : dts2.isEmpty = false := by
    cases dts2 with
    | nil => exact absurd rfl hne2
    | cons _ _ => rfl
  have hne1' : dts1.isEmpty = false := by
    cases dts1 with
    | nil => exact absurd rfl hne1
    | cons _ _ => rfl
  rw [hnode2, hne2']
  simp only [Bool.false_eq_true, if_false]
  have hval : e + (s0 - e) * (a2.progress + dts2.sum / d) = s0 := by
    rw [hrprog, hs2, div_self hd0]
    ring
  rw [hval, hrnode, hnode1, hne1']
  simp only [Bool.false_eq_true, if_false]
  rw [show a0.node = node0 from rfl, propSet_propSet]
  exact propGet_propSet_self "x" s0 node0 s0 hx

/-- Witness for the amended C9 theorem: x from 7 to 3, duration 2, advanced
1 + 1 out, reversed, advanced 2 back; x returns to 7 exactly. -/
theorem c9_round_trip_exact_witness :
    propGet "x"
      (runAnim mcpTriv
        (CoreAnimation.reverse
          (runAnim mcpTriv
            (mkAnimation [("x", 7)] [("x", 3)]
              { duration := some 2, loop := false, easing := none, stopMethod := none })
            [1, 1]))
        [2]).node = some 7 :=
  c9_round_trip_exact mcpTriv [("x", 7)] 7 3 2 (by norm_num) rfl false none [1, 1] [2]
    (by decide) (by decide) (by decide) (by decide) (by decide) (by decide)

theorem treeLookup_setRecalculationType_ne (t : NodeTree) (id ty j : ℕ) (h : j ≠ id) :
    treeLookup (setRecalculationType t id ty) j = treeLookup t j := by
  unfold setRecalculationType
  cases htl : treeLookup t id with
  | none => rfl
  | some n =>
    rw [treeLookup_markDirty, treeLookup_updateNode_ne _ _ _ _ h]

/-- C5: reparenting is atomic. With the node, its current parent and the new
parent all registered and distinct (and the old parent id truthy), the single
assignment `node.parent = newParent` yields a registry in which the old
parent's children list is the old list with the node's id filtered out (so no
longer contains it) and the new parent's children list is its old list with
the node's id appended (so contains it). -/
theorem c5_reparent_atomic (t : NodeTree) (cid opid npid : ℕ) (c op np : CoreNode)
    (hc : treeLookup t cid = some c) (hcp : c.parentId = some opid)
    (hop : treeLookup t opid = some op) (hnp : treeLookup t npid = some np)
    (hone : opid ≠ npid) (htwo : cid ≠ opid) (hthree : cid ≠ npid) (hzero : opid ≠ 0) :
    ∃ t5, setParent t cid (some npid) = Except.ok t5 ∧
      (treeLookup t5 opid).map CoreNode.childrenIds =
        some (op.childrenIds.filter (fun i => i ≠ cid)) ∧
      cid ∉ op.childrenIds.filter (fun i => i ≠ cid) ∧
      (treeLookup t5 npid).map CoreNode.childrenIds = some (np.childrenIds ++ [cid]) ∧
      cid ∈ np.childrenIds ++ [cid] := by
  have hbeq : (opid == npid) = false := beq_eq_false_iff_ne.mpr hone
  have hget : treeGetE t opid = Except.ok op := by unfold treeGetE; rw [hop]
  unfold setParent
  rw [hc]
  simp only [hcp, hbeq, Bool.false_eq_true, if_false]
  rw [if_pos hzero, hget]
  simp only [bind, Except.bind, pure, Except.pure]
  rw [treeLookup_updateNode_ne _ _ _ _ (Ne.symm hthree), treeLookup_markDirty,
      treeLookup_updateNode_ne _ _ _ _ (Ne.symm hone), hnp]
  refine ⟨_, rfl, ?_, ?_, ?_, ?_⟩
  · rw [treeLookup_setRecalculationType_ne _ _ _ _ (Ne.symm htwo),
        treeLookup_updateNode_ne _ _ _ _ (Ne.symm htwo),
        treeLookup_markDirty,
        treeLookup_updateNode_ne _ _ _ _ hone,
        treeLookup_updateNode_ne _ _ _ _ (Ne.symm htwo),
        treeLookup_markDirty,
        treeLookup_updateNode_self t opid _ op hop]
    simp only [Option.map]
    split <;> rfl
  · simp
  · rw [treeLookup_setRecalculationType_ne _ _ _ _ (Ne.symm hthree),
        treeLookup_updateNode_ne _ _ _ _ (Ne.symm hthree),
        treeLookup_markDirty,
        treeLookup_updateNode_self _ npid _ np
          (by rw [treeLookup_updateNode_ne _ _ _ _ (Ne.symm hthree), treeLookup_markDirty,
                  treeLookup_updateNode_ne _ _ _ _ (Ne.symm hone), hnp])]
    simp only [Option.map]
    split <;> rfl
  · simp

theorem c5_reparent_atomic_witness :
    ∃ t5, setParent treeC5 3 (some 2) = Except.ok t5 ∧
      (treeLookup t5 1).map CoreNode.childrenIds =
        some (nodeC5old.childrenIds.filter (fun i => i ≠ 3)) ∧
      3 ∉ nodeC5old.childrenIds.filter (fun i => i ≠ 3) ∧
      (treeLookup t5 2).map CoreNode.childrenIds = some (nodeC5new.childrenIds ++ [3]) ∧
      3 ∈ nodeC5new.childrenIds ++ [3] :=
  c5_reparent_atomic treeC5 3 1 2 nodeC5child nodeC5old nodeC5new (by decide) (by decide)
    (by decide) (by decide) (by decide) (by decide) (by decide) (by decide)
